import Mathlib

/-!
# Verification of the mistake-logger web application

A shallow embedding of `main.go` of the `mistake-logger` repository: a
single-table CRUD application over SQLite.  The database is modelled as a
list of records plus the AUTOINCREMENT counter; each SQL statement of the
source becomes an explicit Lean function on that state, and the dynamic
WHERE-clause assembly of `searchMistakes` becomes an explicit list of
boolean predicates joined by AND.  SQLite's default `LIKE` semantics
(ASCII-case-insensitive, `%`/`_` wildcards, no ESCAPE clause) are embedded
at the character-list level, as is SQLite's BINARY (bytewise) comparison
of TEXT values.
-/

/-- The `Mistake` struct of `main.go` (column `id` is the SQLite rowid,
`created_at` is assigned by the Add handler before insertion). -/
structure Mistake where
  id : Nat
  topic : String
  date : String
  problem : String
  missed : String
  fixRule : String
  patternRemember : String
  createdAt : String
deriving DecidableEq, Repr

/-- The persistent state: the `mistakes` table together with the
AUTOINCREMENT counter (SQLite's `sqlite_sequence` entry): every id ever
assigned is below `nextId`, and ids are never reused. -/
structure DB where
  records : List Mistake
  nextId : Nat
deriving DecidableEq, Repr

/-- ASCII whitespace recognised by `strings.TrimSpace` (the Go function
also strips the rarer Unicode space code points, which never occur in the
claims considered here). -/
def isSpaceChar (c : Char) : Bool :=
  c == ' ' || c == '\t' || c == '\n' || c == '\r' || c == '\x0b' || c == '\x0c'

/-- Strip leading and trailing whitespace from a character list. -/
def trimChars (l : List Char) : List Char :=
  ((l.dropWhile isSpaceChar).reverse.dropWhile isSpaceChar).reverse

/-- `strings.TrimSpace` of the Go standard library. -/
def trimS (s : String) : String := ⟨trimChars s.data⟩

/-- Strict lexicographic order on character lists, comparing characters
by code point: on UTF-8 strings this is exactly SQLite's BINARY (memcmp)
comparison of TEXT values. -/
def charListLt : List Char → List Char → Bool
  | [], [] => false
  | [], _ :: _ => true
  | _ :: _, [] => false
  | a :: as, b :: bs => decide (a < b) || (a == b && charListLt as bs)

/-- SQLite's `<` on TEXT values. -/
def strLt (a b : String) : Bool := charListLt a.data b.data

/-- SQLite's `<=` on TEXT values. -/
def strLe (a b : String) : Bool := strLt a b || a == b

/-- ASCII lower-casing, the case folding applied by SQLite's default
`LIKE` comparison (non-ASCII characters compare verbatim). -/
def asciiLower (c : Char) : Char :=
  if 'A' ≤ c ∧ c ≤ 'Z' then Char.ofNat (c.toNat + 32) else c

/-- Character comparison used by SQLite `LIKE`: equal up to ASCII case. -/
def likeCharEq (p c : Char) : Bool := asciiLower p == asciiLower c

/-- SQLite `LIKE` pattern matching (default behaviour: no `ESCAPE`
clause, `%` matches any sequence of characters, `_` matches any single
character, ordinary characters compare ASCII-case-insensitively). -/
def likeMatch : List Char → List Char → Bool
  | [], s => s.isEmpty
  | p :: ps, s =>
    if p = '%' then s.tails.any (fun s' => likeMatch ps s')
    else
      match s with
      | [] => false
      | c :: s' => (p == '_' || likeCharEq p c) && likeMatch ps s'

/-- The pattern `"%" + q + "%"` built at `main.go:371`, as a character
list. -/
def likePattern (q : String) : List Char := '%' :: (q.data ++ ['%'])

/-- `field LIKE '%' || q || '%'` for one text column. -/
def fieldMatchesTerm (q f : String) : Bool := likeMatch (likePattern q) f.data

/-- The OR clause of `main.go:372`: the term pattern tested against the
five text columns `topic, problem_statement, what_i_missed, fix_rule,
pattern_to_remember`. -/
def termClause (q : String) (m : Mistake) : Bool :=
  fieldMatchesTerm q m.topic || fieldMatchesTerm q m.problem ||
  fieldMatchesTerm q m.missed || fieldMatchesTerm q m.fixRule ||
  fieldMatchesTerm q m.patternRemember

/-- Numeric value of an ASCII digit. -/
def digitVal (c : Char) : Nat := c.toNat - '0'.toNat

/-- Gregorian leap-year rule, as in Go's `time` package. -/
def isLeap (y : Nat) : Bool := (y % 4 == 0 && y % 100 != 0) || y % 400 == 0

/-- Number of days of month `m` of year `y`. -/
def daysInMonth (y m : Nat) : Nat :=
  if m == 2 then (if isLeap y then 29 else 28)
  else if m == 4 || m == 6 || m == 9 || m == 11 then 30
  else 31

/-- Success of Go's `time.Parse("2006-01-02", s)`: exactly ten characters
`dddd-dd-dd`, month in `1..12`, day in `1..` the month's length (Go
rejects out-of-range days, e.g. `2024-02-30`). -/
def validDate (s : String) : Bool :=
  match s.data with
  | [y1, y2, y3, y4, h1, mo1, mo2, h2, d1, d2] =>
    h1 == '-' && h2 == '-' &&
    (y1.isDigit && y2.isDigit && y3.isDigit && y4.isDigit &&
     mo1.isDigit && mo2.isDigit && d1.isDigit && d2.isDigit) &&
    (let y := ((digitVal y1 * 10 + digitVal y2) * 10 + digitVal y3) * 10 + digitVal y4
     let mo := digitVal mo1 * 10 + digitVal mo2
     let d := digitVal d1 * 10 + digitVal d2
     decide (1 ≤ mo) && decide (mo ≤ 12) && decide (1 ≤ d) &&
       decide (d ≤ daysInMonth y mo))
  | _ => false

/-- `strconv.ParseInt(s, 10, 64)`: optional sign, at least one digit,
value within the signed 64-bit range (`none` models a parse error). -/
def parseInt64 (s : String) : Option Int :=
  match s.data with
  | [] => none
  | c :: rest =>
    let signed : Bool × List Char :=
      if c = '-' then (true, rest)
      else if c = '+' then (false, rest) else (false, c :: rest)
    match signed with
    | (neg, digits) =>
      if digits.isEmpty then none
      else if digits.all Char.isDigit then
        let n : Nat := digits.foldl (fun acc d => 10 * acc + digitVal d) 0
        let v : Int := if neg then -(n : Int) else (n : Int)
        if v < -(2 ^ 63) ∨ (2 ^ 63 - 1 : Int) < v then none else some v
      else none

/-- `parseIDParam` of `main.go:464`: the raw text is the URL-query value
of `id` when that is non-empty, otherwise `r.FormValue("id")` — which for
a POST request returns the body value when present, falling back to the
(here empty) query value.  The raw text must parse as a positive int64. -/
def parseIDParam (queryVal bodyVal : String) : Option Nat :=
  let raw := if queryVal = "" then (if bodyVal = "" then queryVal else bodyVal)
             else queryVal
  match parseInt64 raw with
  | none => none
  | some v => if v ≤ 0 then none else some v.toNat

/-- The six form fields read by `mistakeFromForm` (effective values of
`r.FormValue` for each field name). -/
structure MistakeForm where
  topic : String
  date : String
  problemStatement : String
  whatIMissed : String
  fixRule : String
  patternToRemember : String
deriving DecidableEq, Repr

/-- `mistakeFromForm` of `main.go:436`: trim the six fields, reject when
any is empty, reject when the date fails `time.Parse("2006-01-02", ·)`;
the returned struct has zero-valued `id` and `created_at`. -/
def mistakeFromForm (f : MistakeForm) : Except String Mistake :=
  let topic := trimS f.topic
  let date := trimS f.date
  let problem := trimS f.problemStatement
  let missed := trimS f.whatIMissed
  let fix := trimS f.fixRule
  let pat := trimS f.patternToRemember
  if topic = "" ∨ date = "" ∨ problem = "" ∨ missed = "" ∨ fix = "" ∨ pat = "" then
    .error "All fields are required."
  else if ¬ validDate date then
    .error "Invalid date format. Use YYYY-MM-DD."
  else
    .ok { id := 0, topic := topic, date := date, problem := problem,
          missed := missed, fixRule := fix, patternRemember := pat,
          createdAt := "" }

/-- `INSERT INTO mistakes ...` (`main.go:403`): the store assigns the
next rowid and persists the six fields plus `created_at` verbatim;
returns the new state and the assigned id. -/
def insertMistake (st : DB) (m : Mistake) : DB × Nat :=
  ({ records := st.records ++ [{ m with id := st.nextId }],
     nextId := st.nextId + 1 }, st.nextId)

/-- `SELECT ... WHERE id = ?` (`main.go:411`); `none` models the
`sql.ErrNoRows` (NotFound) outcome. -/
def getMistakeByID (st : DB) (id : Nat) : Option Mistake :=
  st.records.find? (fun m => m.id == id)

/-- `UPDATE mistakes SET topic=?, date=?, problem_statement=?,
what_i_missed=?, fix_rule=?, pattern_to_remember=? WHERE id=?`
(`main.go:421`): the SET list names the six mutable columns only, so
`id` and `created_at` of a matched row are untouched; rows-affected is
ignored by the Go code, so the function always succeeds. -/
def updateMistake (st : DB) (m : Mistake) : DB :=
  { st with records := st.records.map (fun r =>
      if r.id == m.id then
        { r with topic := m.topic, date := m.date, problem := m.problem,
                 missed := m.missed, fixRule := m.fixRule,
                 patternRemember := m.patternRemember }
      else r) }

/-- `DELETE FROM mistakes WHERE id = ?` (`main.go:430`); rows-affected is
ignored, so deleting an absent id succeeds. -/
def deleteMistake (st : DB) (id : Nat) : DB :=
  { st with records := st.records.filter (fun m => !(m.id == id)) }

/-- The WHERE clauses accumulated by `searchMistakes` (`main.go:354`), in
source order: topic equality, `date >= from`, `date <= to`, and the
five-column LIKE disjunction — each appended only when its parameter is
non-empty.  SQLite compares the TEXT dates bytewise (`strLe`). -/
def whereClauses (q topic dateFrom dateTo : String) : List (Mistake → Bool) :=
  (if topic = "" then [] else [fun m => m.topic == topic]) ++
  (if dateFrom = "" then [] else [fun m => strLe dateFrom m.date]) ++
  (if dateTo = "" then [] else [fun m => strLe m.date dateTo]) ++
  (if q = "" then [] else [fun m => termClause q m])

/-- A row satisfies `WHERE c₁ AND c₂ AND ...` iff it satisfies every
accumulated clause. -/
def matchesWhere (q topic dateFrom dateTo : String) (m : Mistake) : Bool :=
  (whereClauses q topic dateFrom dateTo).all (fun p => p m)

/-- `ORDER BY date DESC, id DESC`: row `a` comes no later than row `b`. -/
def sqlOrder (a b : Mistake) : Bool :=
  strLt b.date a.date || (a.date == b.date && decide (b.id ≤ a.id))

/-- `searchMistakes` (`main.go:354`): filter by the accumulated WHERE
clauses, order by `date DESC, id DESC`, truncate at `LIMIT ?`. -/
def searchMistakes (st : DB) (q topic dateFrom dateTo : String)
    (limit : Nat) : List Mistake :=
  (((st.records.filter (matchesWhere q topic dateFrom dateTo)).mergeSort
      sqlOrder).take limit)

/-- Outcome of a mutating handler: a 4xx client error or the
redirect-back response issued on success. -/
inductive HResp where
  | badRequest
  | redirect
deriving DecidableEq, Repr

/-- `handleAdd` (`main.go:154`): validate the form, stamp `created_at`
with the current instant, insert, redirect; on validation failure the
state is untouched and a 400 is returned. -/
def handleAdd (st : DB) (f : MistakeForm) (now : String) : DB × HResp :=
  match mistakeFromForm f with
  | .error _ => (st, .badRequest)
  | .ok m => ((insertMistake st { m with createdAt := now }).1, .redirect)

/-- A POST `/edit` request: the `id` value of the URL query (empty when
absent), the `id` value of the POST body (empty when absent), and the six
form fields. -/
structure EditPostRequest where
  queryId : String
  formId : String
  form : MistakeForm
deriving DecidableEq, Repr

/-- The POST branch of `handleEdit` (`main.go:204`): resolve the id via
`parseIDParam`, validate the form, force the resolved id onto the parsed
record (`m.ID = id`), and update. -/
def handleEditPost (st : DB) (r : EditPostRequest) : DB × HResp :=
  match parseIDParam r.queryId r.formId with
  | none => (st, .badRequest)
  | some id =>
    match mistakeFromForm r.form with
    | .error _ => (st, .badRequest)
    | .ok m => (updateMistake st { m with id := id }, .redirect)

/-- The handlers registered on the `http.ServeMux` (`main.go:73`). -/
inductive RouteTarget where
  | index
  | add
  | edit
  | delete
  | exportCSV
  | rules
  | staticFiles
deriving DecidableEq, Repr

/-- Split a character list at every `/` (keeping empty segments produced
by leading, doubled or trailing slashes); `cur` is the segment being
accumulated, in reverse. -/
def pathSegs : List Char → List Char → List (List Char)
  | [], cur => [cur.reverse]
  | c :: rest, cur =>
    if c = '/' then cur.reverse :: pathSegs rest []
    else pathSegs rest (c :: cur)

/-- The element loop of Go's `path.Clean` on a rooted path: empty and `.`
segments are dropped, `..` pops the previously kept segment (or is
dropped at the root), any other segment is kept; `acc` holds the kept
segments in reverse. -/
def cleanSegs : List (List Char) → List (List Char) → List (List Char)
  | [], acc => acc.reverse
  | s :: rest, acc =>
    if s = [] ∨ s = ['.'] then cleanSegs rest acc
    else if s = ['.', '.'] then cleanSegs rest acc.tail
    else cleanSegs rest (s :: acc)

/-- `cleanPath` of `net/http`: an empty path becomes `/`, a relative path
is rooted, `path.Clean` is applied, and the trailing slash that `Clean`
strips is put back (except on `/` itself). -/
def cleanPath (p : String) : String :=
  if p = "" then "/"
  else
    let l := if List.isPrefixOf ['/'] p.data then p.data else '/' :: p.data
    let segs := cleanSegs (pathSegs l []) []
    let joined := segs.foldl (fun acc s => acc ++ '/' :: s) []
    let rooted := if joined = [] then ['/'] else joined
    let restored :=
      if l.getLast? = some '/' ∧ rooted ≠ ['/'] then rooted ++ ['/'] else rooted
    ⟨restored⟩

/-- What the mux sends back for a request path: dispatch to a registered
handler, or the 301 (`StatusMovedPermanently`) canonicalization redirect
that `ServeMux.Handler` issues before any dispatch. -/
inductive RouteResult where
  | handler (t : RouteTarget)
  | redirectPermanent (location : String)
deriving DecidableEq, Repr

/-- Longest-pattern dispatch among the patterns registered in `main`
(`main.go:73`), applied to an already canonical path: the exact patterns
`/add`, `/edit`, `/delete`, `/export.csv`, `/rules` match only their own
path, the subtree pattern `/static/` matches by prefix, and the subtree
pattern `/` catches every remaining path. -/
def muxMatch (path : String) : RouteTarget :=
  if path = "/add" then .add
  else if path = "/edit" then .edit
  else if path = "/delete" then .delete
  else if path = "/export.csv" then .exportCSV
  else if path = "/rules" then .rules
  else if List.isPrefixOf "/static/".data path.data then .staticFiles
  else .index

/-- `ServeMux.Handler` resolution for the mux built in `main`
(`main.go:73`): the request path is cleaned; if the cleaned path has no
exact registration but cleaned-path+`/` is a registered pattern, the mux
301-redirects to it (among the registered patterns `/` and `/static/`,
the only such path is `/static`, since cleaned-path+`/` = `/` would need
an empty cleaned path, which `cleanPath` never produces); otherwise, if
cleaning changed the path, the mux 301-redirects to the cleaned path;
only a path that survives both checks is dispatched to a handler. -/
def muxRoute (path : String) : RouteResult :=
  let cp := cleanPath path
  if cp = "/static" then .redirectPermanent "/static/"
  else if cp ≠ path then .redirectPermanent cp
  else .handler (muxMatch path)

/-! ## Order lemmas for the embedded SQLite BINARY comparison -/

theorem charListLt_trans : ∀ (a b c : List Char), charListLt a b = true →
    charListLt b c = true → charListLt a c = true
  | [], [], _, hab, _ => by cases hab
  | [], _ :: _, [], _, hbc => by cases hbc
  | [], _ :: _, _ :: _, _, _ => rfl
  | _ :: _, [], _, hab, _ => by cases hab
  | _ :: _, _ :: _, [], _, hbc => by cases hbc
  | x :: as, y :: bs, z :: cs, hab, hbc => by
    simp only [charListLt, Bool.or_eq_true, Bool.and_eq_true,
      decide_eq_true_iff, beq_iff_eq] at hab hbc ⊢
    rcases hab with hab | ⟨hxy, hab⟩
    · rcases hbc with hbc | ⟨hyz, _⟩
      · exact Or.inl (lt_trans hab hbc)
      · exact Or.inl (hyz ▸ hab)
    · rcases hbc with hbc | ⟨hyz, hbc⟩
      · exact Or.inl (hxy ▸ hbc)
      · exact Or.inr ⟨hxy.trans hyz, charListLt_trans as bs cs hab hbc⟩

theorem charListLt_trichotomy : ∀ (a b : List Char),
    charListLt a b = true ∨ a = b ∨ charListLt b a = true
  | [], [] => Or.inr (Or.inl rfl)
  | [], _ :: _ => Or.inl rfl
  | _ :: _, [] => Or.inr (Or.inr rfl)
  | x :: as, y :: bs => by
    simp only [charListLt, Bool.or_eq_true, Bool.and_eq_true,
      decide_eq_true_iff, beq_iff_eq, List.cons.injEq]
    rcases lt_trichotomy x y with hxy | hxy | hxy
    · exact Or.inl (Or.inl hxy)
    · rcases charListLt_trichotomy as bs with h | h | h
      · exact Or.inl (Or.inr ⟨hxy, h⟩)
      · exact Or.inr (Or.inl ⟨hxy, h⟩)
      · exact Or.inr (Or.inr (Or.inr ⟨hxy.symm, h⟩))
    · exact Or.inr (Or.inr (Or.inl hxy))

theorem strLt_trans (a b c : String) (hab : strLt a b = true)
    (hbc : strLt b c = true) : strLt a c = true :=
  charListLt_trans a.data b.data c.data hab hbc

theorem strLt_trichotomy (a b : String) :
    strLt a b = true ∨ a = b ∨ strLt b a = true := by
  rcases charListLt_trichotomy a.data b.data with h | h | h
  · exact Or.inl h
  · refine Or.inr (Or.inl ?_)
    cases a; cases b; exact congrArg String.mk h
  · exact Or.inr (Or.inr h)

theorem sqlOrder_trans (a b c : Mistake) (hab : sqlOrder a b = true)
    (hbc : sqlOrder b c = true) : sqlOrder a c = true := by
  simp only [sqlOrder, Bool.or_eq_true, Bool.and_eq_true,
    decide_eq_true_iff, beq_iff_eq] at hab hbc ⊢
  rcases hab with hab | ⟨hdab, hiab⟩
  · rcases hbc with hbc | ⟨hdbc, _⟩
    · exact Or.inl (strLt_trans _ _ _ hbc hab)
    · exact Or.inl (hdbc ▸ hab)
  · rcases hbc with hbc | ⟨hdbc, hibc⟩
    · exact Or.inl (hdab ▸ hbc)
    · exact Or.inr ⟨hdab.trans hdbc, le_trans hibc hiab⟩

theorem sqlOrder_total (a b : Mistake) : sqlOrder a b || sqlOrder b a := by
  simp only [sqlOrder, Bool.or_eq_true, Bool.and_eq_true,
    decide_eq_true_iff, beq_iff_eq]
  rcases strLt_trichotomy a.date b.date with h | h | h
  · exact Or.inr (Or.inl h)
  · rcases Nat.le_total a.id b.id with hid | hid
    · exact Or.inr (Or.inr ⟨h.symm, hid⟩)
    · exact Or.inl (Or.inr ⟨h, hid⟩)
  · exact Or.inl (Or.inl h)

/-! ## `LIKE '%term%'` versus substring containment -/

theorem likeMatch_nil_star (s : List Char) : likeMatch ['%'] s = true := by
  simp [likeMatch]

theorem likeMatch_lit_star (t : List Char) (ht : ∀ c ∈ t, c ≠ '%' ∧ c ≠ '_') :
    ∀ s : List Char, likeMatch (t ++ ['%']) s = true ↔
      ∃ s₁ s₂ : List Char, s = s₁ ++ s₂ ∧
        s₁.map asciiLower = t.map asciiLower := by
  induction t with
  | nil =>
    intro s
    constructor
    · intro _
      exact ⟨[], s, rfl, rfl⟩
    · intro _
      simpa using likeMatch_nil_star s
  | cons c t ih =>
    have hc := ht c (List.mem_cons_self _ _)
    have ht' : ∀ x ∈ t, x ≠ '%' ∧ x ≠ '_' :=
      fun x hx => ht x (List.mem_cons_of_mem _ hx)
    have hcu : (c == '_') = false := beq_eq_false_iff_ne.mpr hc.2
    intro s
    cases s with
    | nil =>
      simp only [List.cons_append, likeMatch, if_neg hc.1]
      constructor
      · intro h
        exact absurd h (by simp)
      · rintro ⟨s₁, s₂, heq, hmap⟩
        rcases List.append_eq_nil.mp heq.symm with ⟨rfl, -⟩
        simp at hmap
    | cons d s' =>
      simp only [List.cons_append, likeMatch, if_neg hc.1, hcu,
        Bool.false_or, Bool.and_eq_true, List.append_eq]
      constructor
      · rintro ⟨hcd, hrec⟩
        obtain ⟨s₁, s₂, rfl, hmap⟩ := (ih ht' s').mp hrec
        have hcd' : asciiLower c = asciiLower d := by
          simpa [likeCharEq, beq_iff_eq] using hcd
        exact ⟨d :: s₁, s₂, rfl, by simp [hmap, hcd']⟩
      · rintro ⟨s₁, s₂, heq, hmap⟩
        cases s₁ with
        | nil => simp at hmap
        | cons e s₁' =>
          rw [List.cons_append, List.cons.injEq] at heq
          obtain ⟨rfl, rfl⟩ := heq
          rw [List.map_cons, List.map_cons, List.cons.injEq] at hmap
          refine ⟨?_, (ih ht' _).mpr ⟨s₁', s₂, rfl, hmap.2⟩⟩
          simp [likeCharEq, beq_iff_eq, hmap.1]

theorem likeMatch_wrap (t : List Char) (ht : ∀ c ∈ t, c ≠ '%' ∧ c ≠ '_')
    (s : List Char) :
    likeMatch ('%' :: (t ++ ['%'])) s = true ↔
      t.map asciiLower <:+: s.map asciiLower := by
  have h1 : likeMatch ('%' :: (t ++ ['%'])) s =
      s.tails.any (fun s' => likeMatch (t ++ ['%']) s') := by
    simp [likeMatch]
  rw [h1, List.any_eq_true]
  constructor
  · rintro ⟨x, hx, hmatch⟩
    rw [List.mem_tails] at hx
    obtain ⟨s₁, s₂, rfl, hmap⟩ := (likeMatch_lit_star t ht x).mp hmatch
    obtain ⟨pre, rfl⟩ := hx
    exact ⟨pre.map asciiLower, s₂.map asciiLower, by rw [← hmap]; simp⟩
  · rintro ⟨u, v, huv⟩
    rw [List.append_assoc] at huv
    obtain ⟨a, b, rfl, -, hb⟩ := List.map_eq_append_iff.mp huv.symm
    obtain ⟨b₁, b₂, rfl, hb₁, -⟩ := List.map_eq_append_iff.mp hb
    refine ⟨b₁ ++ b₂, (List.mem_tails _ _).mpr ⟨a, rfl⟩, ?_⟩
    exact (likeMatch_lit_star t ht _).mpr ⟨b₁, b₂, rfl, hb₁⟩

/-! ## Repository lemmas -/

theorem find?_id_map (f : Mistake → Mistake) (hf : ∀ r, (f r).id = r.id)
    (i : Nat) : ∀ l : List Mistake,
    (l.map f).find? (fun x => x.id == i) = (l.find? (fun r => r.id == i)).map f
  | [] => rfl
  | r :: l => by
    simp only [List.map_cons, List.find?]
    rw [hf r]
    cases h : (r.id == i) with
    | true => rfl
    | false => exact find?_id_map f hf i l

theorem getMistakeByID_update (st : DB) (m : Mistake) (i : Nat) :
    getMistakeByID (updateMistake st m) i =
      (st.records.find? (fun r => r.id == i)).map
        (fun r => if r.id == m.id then
            { r with topic := m.topic, date := m.date, problem := m.problem,
                     missed := m.missed, fixRule := m.fixRule,
                     patternRemember := m.patternRemember }
          else r) := by
  simp only [getMistakeByID, updateMistake]
  exact find?_id_map _ (fun r => by by_cases h : r.id == m.id <;> simp [h]) i
    st.records

/-- C3: `updateMistake` ignores the rows-affected count (`main.go:421`
discards the `sql.Result`), so updating an id that matches no record
succeeds and leaves the table unchanged: the UPDATE's WHERE clause
matches no row, every stored record is kept verbatim, and no error is
surfaced (the embedded function is total, mirroring the absence of any
`NotFound` path in the Go code). -/
theorem update_missing_id_silent_noop (st : DB) (m : Mistake)
    (habs : ∀ r ∈ st.records, r.id ≠ m.id) : updateMistake st m = st := by
  cases st with
  | mk records nextId =>
    simp only [updateMistake, DB.mk.injEq, and_true]
    have h : ∀ r ∈ records, (if r.id == m.id then
        { r with topic := m.topic, date := m.date, problem := m.problem,
                 missed := m.missed, fixRule := m.fixRule,
                 patternRemember := m.patternRemember }
      else r) = r := by
      intro r hr
      rw [if_neg]
      simp only [beq_iff_eq]
      exact habs r hr
    rw [List.map_congr_left h, List.map_id']

theorem update_missing_id_silent_noop_witness :
    (∀ r ∈ (DB.mk [⟨1, "t", "2024-01-01", "p", "w", "f", "pa", "c"⟩] 2).records,
      r.id ≠ (Mistake.mk 2 "t2" "2024-01-02" "p2" "w2" "f2" "pa2" "c2").id) ∧
    updateMistake (DB.mk [⟨1, "t", "2024-01-01", "p", "w", "f", "pa", "c"⟩] 2)
        (Mistake.mk 2 "t2" "2024-01-02" "p2" "w2" "f2" "pa2" "c2") =
      DB.mk [⟨1, "t", "2024-01-01", "p", "w", "f", "pa", "c"⟩] 2 :=
  ⟨by decide, update_missing_id_silent_noop _ _ (by decide)⟩

/-- C6: in a well-formed state (every stored id below the AUTOINCREMENT
counter), `insertMistake` followed by `getMistakeByID` at the assigned id
returns the inserted record: all six user-supplied fields and
`created_at` are as given, only `id` is replaced by the store-assigned
value. -/
theorem insert_then_get_roundtrip (st : DB) (m : Mistake)
    (hwf : ∀ r ∈ st.records, r.id < st.nextId) :
    getMistakeByID (insertMistake st m).1 (insertMistake st m).2 =
      some { m with id := st.nextId } := by
  simp only [getMistakeByID, insertMistake, List.find?_append]
  have h1 : st.records.find? (fun r => r.id == st.nextId) = none := by
    refine List.find?_eq_none.mpr ?_
    intro r hr
    simp only [beq_iff_eq]
    exact Nat.ne_of_lt (hwf r hr)
  rw [h1]
  simp [List.find?]

theorem insert_then_get_roundtrip_witness :
    (∀ r ∈ (DB.mk [⟨1, "t", "2024-01-01", "p", "w", "f", "pa", "c"⟩] 2).records,
      r.id < (DB.mk [⟨1, "t", "2024-01-01", "p", "w", "f", "pa", "c"⟩] 2).nextId) ∧
    getMistakeByID
        (insertMistake (DB.mk [⟨1, "t", "2024-01-01", "p", "w", "f", "pa", "c"⟩] 2)
          (Mistake.mk 0 "t2" "2024-01-02" "p2" "w2" "f2" "pa2" "c2")).1
        (insertMistake (DB.mk [⟨1, "t", "2024-01-01", "p", "w", "f", "pa", "c"⟩] 2)
          (Mistake.mk 0 "t2" "2024-01-02" "p2" "w2" "f2" "pa2" "c2")).2 =
      some (Mistake.mk 2 "t2" "2024-01-02" "p2" "w2" "f2" "pa2" "c2") :=
  ⟨by decide, insert_then_get_roundtrip _ _ (by decide)⟩

/-- C7: `updateMistake` overwrites exactly the six mutable columns of the
matched record — `id` and `created_at` are not in the SET list and stay
unchanged — a subsequent `getMistakeByID` returns the updated values, and
every record with a different id is read back unchanged. -/
theorem update_overwrites_exactly_mutable_fields (st : DB) (m r : Mistake)
    (hr : getMistakeByID st m.id = some r) :
    getMistakeByID (updateMistake st m) m.id =
      some { r with topic := m.topic, date := m.date, problem := m.problem,
                    missed := m.missed, fixRule := m.fixRule,
                    patternRemember := m.patternRemember } ∧
    ({ r with topic := m.topic, date := m.date, problem := m.problem,
              missed := m.missed, fixRule := m.fixRule,
              patternRemember := m.patternRemember } : Mistake).id = r.id ∧
    ({ r with topic := m.topic, date := m.date, problem := m.problem,
              missed := m.missed, fixRule := m.fixRule,
              patternRemember := m.patternRemember } : Mistake).createdAt =
      r.createdAt ∧
    ∀ j, j ≠ m.id →
      getMistakeByID (updateMistake st m) j = getMistakeByID st j := by
  have h2 : st.records.find? (fun x => x.id == m.id) = some r := hr
  have hpr : (r.id == m.id) = true := by simpa using List.find?_some h2
  refine ⟨?_, rfl, rfl, ?_⟩
  · rw [getMistakeByID_update]
    simp only [getMistakeByID] at hr
    rw [hr, Option.map_some', if_pos hpr]
  · intro j hj
    rw [getMistakeByID_update]
    simp only [getMistakeByID]
    cases hfind : st.records.find? (fun x => x.id == j) with
    | none => rfl
    | some r' =>
      have hr' : (r'.id == j) = true := by simpa using List.find?_some hfind
      rw [Option.map_some', if_neg]
      simp only [beq_iff_eq] at hr' ⊢
      rw [hr']
      exact hj

theorem update_overwrites_exactly_mutable_fields_witness :
    getMistakeByID
        (DB.mk [⟨1, "t", "2024-01-01", "p", "w", "f", "pa", "c"⟩,
                ⟨2, "u", "2024-01-02", "q", "x", "g", "qa", "d"⟩] 3)
        (Mistake.mk 2 "u2" "2024-01-03" "q2" "x2" "g2" "qb" "ignored").id =
      some (Mistake.mk 2 "u" "2024-01-02" "q" "x" "g" "qa" "d") ∧
    (getMistakeByID
        (updateMistake
          (DB.mk [⟨1, "t", "2024-01-01", "p", "w", "f", "pa", "c"⟩,
                  ⟨2, "u", "2024-01-02", "q", "x", "g", "qa", "d"⟩] 3)
          (Mistake.mk 2 "u2" "2024-01-03" "q2" "x2" "g2" "qb" "ignored"))
        (Mistake.mk 2 "u2" "2024-01-03" "q2" "x2" "g2" "qb" "ignored").id =
      some (Mistake.mk 2 "u2" "2024-01-03" "q2" "x2" "g2" "qb" "d") ∧
      (Mistake.mk 2 "u2" "2024-01-03" "q2" "x2" "g2" "qb" "d").id = 2 ∧
      (Mistake.mk 2 "u2" "2024-01-03" "q2" "x2" "g2" "qb" "d").createdAt = "d" ∧
      ∀ j, j ≠ (Mistake.mk 2 "u2" "2024-01-03" "q2" "x2" "g2" "qb" "ignored").id →
        getMistakeByID
            (updateMistake
              (DB.mk [⟨1, "t", "2024-01-01", "p", "w", "f", "pa", "c"⟩,
                      ⟨2, "u", "2024-01-02", "q", "x", "g", "qa", "d"⟩] 3)
              (Mistake.mk 2 "u2" "2024-01-03" "q2" "x2" "g2" "qb" "ignored")) j =
          getMistakeByID
            (DB.mk [⟨1, "t", "2024-01-01", "p", "w", "f", "pa", "c"⟩,
                    ⟨2, "u", "2024-01-02", "q", "x", "g", "qa", "d"⟩] 3) j) :=
  ⟨by decide,
   update_overwrites_exactly_mutable_fields
     (DB.mk [⟨1, "t", "2024-01-01", "p", "w", "f", "pa", "c"⟩,
             ⟨2, "u", "2024-01-02", "q", "x", "g", "qa", "d"⟩] 3)
     (Mistake.mk 2 "u2" "2024-01-03" "q2" "x2" "g2" "qb" "ignored")
     (Mistake.mk 2 "u" "2024-01-02" "q" "x" "g" "qa" "d") (by decide)⟩

/-- C8: `deleteMistake` removes every row matching the id, so a
subsequent `getMistakeByID` reports NotFound (`none`); deleting again is
the identity on the already-deleted state, and deleting an id that has no
record (GetByID = `none`) leaves the state exactly as it was — rows
affected is ignored (`main.go:430`), so no error arises. -/
theorem delete_then_get_notFound_and_idempotent (st : DB) (i : Nat) :
    getMistakeByID (deleteMistake st i) i = none ∧
    deleteMistake (deleteMistake st i) i = deleteMistake st i ∧
    (getMistakeByID st i = none → deleteMistake st i = st) := by
  refine ⟨?_, ?_, ?_⟩
  · simp only [getMistakeByID, deleteMistake]
    refine List.find?_eq_none.mpr ?_
    intro x hx
    have h := (List.mem_filter.mp hx).2
    simp only [Bool.not_eq_true'] at h
    simp [h]
  · simp only [deleteMistake]
    cases st with
    | mk records nextId =>
      simp only [DB.mk.injEq, and_true]
      refine List.filter_eq_self.mpr ?_
      intro a ha
      exact (List.mem_filter.mp ha).2
  · intro h
    cases st with
    | mk records nextId =>
      simp only [deleteMistake, DB.mk.injEq, and_true]
      refine List.filter_eq_self.mpr ?_
      intro a ha
      have := List.find?_eq_none.mp h a ha
      simpa using this

theorem delete_then_get_notFound_and_idempotent_witness :
    getMistakeByID
        (deleteMistake (DB.mk [⟨1, "t", "2024-01-01", "p", "w", "f", "pa", "c"⟩] 2) 1)
        1 = none ∧
    deleteMistake
        (deleteMistake (DB.mk [⟨1, "t", "2024-01-01", "p", "w", "f", "pa", "c"⟩] 2) 1)
        1 =
      deleteMistake (DB.mk [⟨1, "t", "2024-01-01", "p", "w", "f", "pa", "c"⟩] 2) 1 ∧
    (getMistakeByID (DB.mk [⟨1, "t", "2024-01-01", "p", "w", "f", "pa", "c"⟩] 2) 1 =
        none →
      deleteMistake (DB.mk [⟨1, "t", "2024-01-01", "p", "w", "f", "pa", "c"⟩] 2) 1 =
        DB.mk [⟨1, "t", "2024-01-01", "p", "w", "f", "pa", "c"⟩] 2) :=
  delete_then_get_notFound_and_idempotent _ 1

/-! ## Search: conjunction of filters, ordering, limit -/

theorem matchesWhere_iff (q topic dFrom dTo : String) (m : Mistake) :
    matchesWhere q topic dFrom dTo m = true ↔
      ((topic ≠ "" → m.topic = topic) ∧
       (dFrom ≠ "" → strLe dFrom m.date = true) ∧
       (dTo ≠ "" → strLe m.date dTo = true) ∧
       (q ≠ "" → termClause q m = true)) := by
  unfold matchesWhere whereClauses
  by_cases ht : topic = "" <;> by_cases hf : dFrom = "" <;>
    by_cases hto : dTo = "" <;> by_cases hq : q = "" <;>
    simp [ht, hf, hto, hq, beq_iff_eq]

/-- C4: a record is returned by `searchMistakes` (whenever the limit does
not truncate) exactly when it is stored and satisfies the conjunction of
the active filters — topic equality, `date >= from`, `date <= to` and the
LIKE term clause — where a parameter that is empty after trimming
contributes no clause at all (the handlers trim all four parameters
before calling `searchMistakes`, so the filter arguments are stated as
trimmed raw inputs). -/
theorem search_filters_are_conjunction (st : DB) (q topic dFrom dTo : String)
    (limit : Nat) (m : Mistake)
    (hlim : (st.records.filter
        (matchesWhere (trimS q) (trimS topic) (trimS dFrom) (trimS dTo))).length
      ≤ limit) :
    m ∈ searchMistakes st (trimS q) (trimS topic) (trimS dFrom) (trimS dTo) limit ↔
      (m ∈ st.records ∧
       (trimS topic ≠ "" → m.topic = trimS topic) ∧
       (trimS dFrom ≠ "" → strLe (trimS dFrom) m.date = true) ∧
       (trimS dTo ≠ "" → strLe m.date (trimS dTo) = true) ∧
       (trimS q ≠ "" → termClause (trimS q) m = true)) := by
  unfold searchMistakes
  rw [List.take_of_length_le (by simpa using hlim), List.mem_mergeSort,
    List.mem_filter, matchesWhere_iff]

theorem search_filters_are_conjunction_witness :
    ((DB.mk [⟨1, "go", "2024-01-01", "p", "w", "f", "pa", "c"⟩] 2).records.filter
        (matchesWhere (trimS " p ") (trimS " go ") (trimS "") (trimS ""))).length
      ≤ 5 ∧
    (Mistake.mk 1 "go" "2024-01-01" "p" "w" "f" "pa" "c" ∈
        searchMistakes (DB.mk [⟨1, "go", "2024-01-01", "p", "w", "f", "pa", "c"⟩] 2)
          (trimS " p ") (trimS " go ") (trimS "") (trimS "") 5 ↔
      (Mistake.mk 1 "go" "2024-01-01" "p" "w" "f" "pa" "c" ∈
          (DB.mk [⟨1, "go", "2024-01-01", "p", "w", "f", "pa", "c"⟩] 2).records ∧
       (trimS " go " ≠ "" →
         (Mistake.mk 1 "go" "2024-01-01" "p" "w" "f" "pa" "c").topic = trimS " go ") ∧
       (trimS "" ≠ "" →
         strLe (trimS "") (Mistake.mk 1 "go" "2024-01-01" "p" "w" "f" "pa" "c").date
           = true) ∧
       (trimS "" ≠ "" →
         strLe (Mistake.mk 1 "go" "2024-01-01" "p" "w" "f" "pa" "c").date (trimS "")
           = true) ∧
       (trimS " p " ≠ "" →
         termClause (trimS " p ") (Mistake.mk 1 "go" "2024-01-01" "p" "w" "f" "pa" "c")
           = true))) :=
  ⟨by decide,
   search_filters_are_conjunction
     (DB.mk [⟨1, "go", "2024-01-01", "p", "w", "f", "pa", "c"⟩] 2)
     " p " " go " "" "" 5
     (Mistake.mk 1 "go" "2024-01-01" "p" "w" "f" "pa" "c") (by decide)⟩

/-- C5: under the table invariant that stored ids are pairwise distinct
(the `id` column is the INTEGER PRIMARY KEY), every `searchMistakes`
result is sorted by date descending with ties broken by id strictly
descending, and holds at most `limit` records. -/
theorem search_ordered_desc_and_limited (st : DB) (q topic dFrom dTo : String)
    (limit : Nat) (hids : st.records.Pairwise (fun a b => a.id ≠ b.id)) :
    (searchMistakes st q topic dFrom dTo limit).length ≤ limit ∧
    (searchMistakes st q topic dFrom dTo limit).Pairwise
      (fun a b => strLt b.date a.date = true ∨
        (a.date = b.date ∧ b.id < a.id)) := by
  constructor
  · unfold searchMistakes
    rw [List.length_take]
    exact Nat.min_le_left _ _
  · unfold searchMistakes
    apply List.Pairwise.sublist (List.take_sublist _ _)
    have hsorted :
        ((st.records.filter (matchesWhere q topic dFrom dTo)).mergeSort
            sqlOrder).Pairwise (fun a b => sqlOrder a b = true) :=
      List.sorted_mergeSort sqlOrder_trans sqlOrder_total _
    have hfilter :
        (st.records.filter (matchesWhere q topic dFrom dTo)).Pairwise
          (fun a b => a.id ≠ b.id) :=
      List.Pairwise.sublist (List.filter_sublist _) hids
    have hne :
        ((st.records.filter (matchesWhere q topic dFrom dTo)).mergeSort
            sqlOrder).Pairwise (fun a b => a.id ≠ b.id) :=
      (List.Perm.pairwise_iff (fun h => Ne.symm h)
        (List.mergeSort_perm _ sqlOrder)).mpr hfilter
    refine (hsorted.and hne).imp ?_
    rintro a b ⟨hab, hne2⟩
    simp only [sqlOrder, Bool.or_eq_true, Bool.and_eq_true, decide_eq_true_iff,
      beq_iff_eq] at hab
    rcases hab with hab | ⟨hdate, hle⟩
    · exact Or.inl hab
    · exact Or.inr ⟨hdate, Nat.lt_of_le_of_ne hle (fun h => hne2 h.symm)⟩

theorem search_ordered_desc_and_limited_witness :
    (DB.mk [⟨1, "t", "2024-01-02", "p", "w", "f", "pa", "c"⟩,
            ⟨2, "u", "2024-01-01", "q", "x", "g", "qa", "d"⟩] 3).records.Pairwise
      (fun a b => a.id ≠ b.id) ∧
    ((searchMistakes
        (DB.mk [⟨1, "t", "2024-01-02", "p", "w", "f", "pa", "c"⟩,
                ⟨2, "u", "2024-01-01", "q", "x", "g", "qa", "d"⟩] 3)
        "" "" "" "" 1).length ≤ 1 ∧
     (searchMistakes
        (DB.mk [⟨1, "t", "2024-01-02", "p", "w", "f", "pa", "c"⟩,
                ⟨2, "u", "2024-01-01", "q", "x", "g", "qa", "d"⟩] 3)
        "" "" "" "" 1).Pairwise
      (fun a b => strLt b.date a.date = true ∨
        (a.date = b.date ∧ b.id < a.id))) :=
  ⟨by decide,
   search_ordered_desc_and_limited
     (DB.mk [⟨1, "t", "2024-01-02", "p", "w", "f", "pa", "c"⟩,
             ⟨2, "u", "2024-01-01", "q", "x", "g", "qa", "d"⟩] 3)
     "" "" "" "" 1 (by decide)⟩

/-! ## Edit-Post id resolution, term-filter semantics, Add validation, routing -/

/-- C1 (counterexample): the claim says the POST body's `id` is ignored
and never selects the record to update.  In the code, `parseIDParam`
falls back to `r.FormValue("id")` when the URL query carries no `id`, so
a POST `/edit` with no query `id` and body `id=2` succeeds and overwrites
record 2 — the form body's id alone determined the update. -/
theorem edit_post_form_id_fallback_cex :
    parseIDParam "" "2" = some 2 ∧
    handleEditPost
        (DB.mk [⟨1, "one", "2024-01-01", "p1", "w1", "f1", "pa1", "c1"⟩,
                ⟨2, "two", "2024-01-02", "p2", "w2", "f2", "pa2", "c2"⟩] 3)
        (EditPostRequest.mk "" "2"
          ⟨"newtopic", "2024-01-03", "p", "w", "f", "pa"⟩) =
      (DB.mk [⟨1, "one", "2024-01-01", "p1", "w1", "f1", "pa1", "c1"⟩,
              ⟨2, "newtopic", "2024-01-03", "p", "w", "f", "pa", "c2"⟩] 3,
       HResp.redirect) := by decide

/-- C1 (amended): when the URL query's `id` is present (non-empty), it
alone determines the update — the outcome of Edit-Post is independent of
any `id` in the POST form body.  (When the query `id` is absent, the form
body's `id` is used as a fallback, as the counterexample shows.) -/
theorem edit_post_form_id_ignored_when_query_id_present
    (st : DB) (q fid fid' : String) (f : MistakeForm) (hq : q ≠ "") :
    handleEditPost st (EditPostRequest.mk q fid f) =
      handleEditPost st (EditPostRequest.mk q fid' f) := by
  simp [handleEditPost, parseIDParam, hq]

theorem edit_post_form_id_ignored_when_query_id_present_witness :
    ("2" : String) ≠ "" ∧
    handleEditPost
        (DB.mk [⟨1, "one", "2024-01-01", "p1", "w1", "f1", "pa1", "c1"⟩,
                ⟨2, "two", "2024-01-02", "p2", "w2", "f2", "pa2", "c2"⟩] 3)
        (EditPostRequest.mk "2" "7"
          ⟨"newtopic", "2024-01-03", "p", "w", "f", "pa"⟩) =
      handleEditPost
        (DB.mk [⟨1, "one", "2024-01-01", "p1", "w1", "f1", "pa1", "c1"⟩,
                ⟨2, "two", "2024-01-02", "p2", "w2", "f2", "pa2", "c2"⟩] 3)
        (EditPostRequest.mk "2" "9"
          ⟨"newtopic", "2024-01-03", "p", "w", "f", "pa"⟩) :=
  ⟨by decide,
   edit_post_form_id_ignored_when_query_id_present
     (DB.mk [⟨1, "one", "2024-01-01", "p1", "w1", "f1", "pa1", "c1"⟩,
             ⟨2, "two", "2024-01-02", "p2", "w2", "f2", "pa2", "c2"⟩] 3)
     "2" "7" "9" ⟨"newtopic", "2024-01-03", "p", "w", "f", "pa"⟩ (by decide)⟩

/-- C2 (counterexample): the claim says a record matches the text filter
iff the term occurs verbatim as a substring of one of the five fields,
for every term including ones containing `%` or `_`.  The code splices
the term unescaped into `LIKE '%term%'`, so for the term `a%b` the `%`
acts as a wildcard: a record whose topic is `aXb` matches the filter even
though `a%b` is a substring of none of its five text fields. -/
theorem term_filter_substring_cex :
    termClause "a%b"
        (Mistake.mk 1 "aXb" "2024-01-01" "zz" "zz" "zz" "zz" "t") = true ∧
    ¬ ("a%b".data <:+:
        (Mistake.mk 1 "aXb" "2024-01-01" "zz" "zz" "zz" "zz" "t").topic.data) ∧
    ¬ ("a%b".data <:+:
        (Mistake.mk 1 "aXb" "2024-01-01" "zz" "zz" "zz" "zz" "t").problem.data) ∧
    ¬ ("a%b".data <:+:
        (Mistake.mk 1 "aXb" "2024-01-01" "zz" "zz" "zz" "zz" "t").missed.data) ∧
    ¬ ("a%b".data <:+:
        (Mistake.mk 1 "aXb" "2024-01-01" "zz" "zz" "zz" "zz" "t").fixRule.data) ∧
    ¬ ("a%b".data <:+:
        (Mistake.mk 1 "aXb" "2024-01-01" "zz" "zz" "zz" "zz"
          "t").patternRemember.data) := by decide

/-- C2 (amended): the text filter is SQLite `LIKE '%term%'` on each of
the five fields, OR-ed across fields: `%` matches any character sequence,
`_` any single character, and letters compare ASCII-case-insensitively.
For a term free of the wildcards `%` and `_` this is exactly
ASCII-case-insensitive substring containment in at least one of the five
fields. -/
theorem term_filter_like_semantics (q : String) (m : Mistake)
    (_hq : q ≠ "") (hwild : ∀ c ∈ q.data, c ≠ '%' ∧ c ≠ '_') :
    termClause q m = true ↔
      (q.data.map asciiLower <:+: m.topic.data.map asciiLower ∨
       q.data.map asciiLower <:+: m.problem.data.map asciiLower ∨
       q.data.map asciiLower <:+: m.missed.data.map asciiLower ∨
       q.data.map asciiLower <:+: m.fixRule.data.map asciiLower ∨
       q.data.map asciiLower <:+: m.patternRemember.data.map asciiLower) := by
  simp only [termClause, fieldMatchesTerm, likePattern, Bool.or_eq_true,
    likeMatch_wrap q.data hwild]
  tauto

theorem term_filter_like_semantics_witness :
    ("Foo" : String) ≠ "" ∧
    (∀ c ∈ ("Foo" : String).data, c ≠ '%' ∧ c ≠ '_') ∧
    (termClause "Foo"
        (Mistake.mk 1 "xfooy" "2024-01-01" "zz" "zz" "zz" "zz" "t") = true ↔
      ("Foo".data.map asciiLower <:+:
        (Mistake.mk 1 "xfooy" "2024-01-01" "zz" "zz" "zz" "zz"
          "t").topic.data.map asciiLower ∨
       "Foo".data.map asciiLower <:+:
        (Mistake.mk 1 "xfooy" "2024-01-01" "zz" "zz" "zz" "zz"
          "t").problem.data.map asciiLower ∨
       "Foo".data.map asciiLower <:+:
        (Mistake.mk 1 "xfooy" "2024-01-01" "zz" "zz" "zz" "zz"
          "t").missed.data.map asciiLower ∨
       "Foo".data.map asciiLower <:+:
        (Mistake.mk 1 "xfooy" "2024-01-01" "zz" "zz" "zz" "zz"
          "t").fixRule.data.map asciiLower ∨
       "Foo".data.map asciiLower <:+:
        (Mistake.mk 1 "xfooy" "2024-01-01" "zz" "zz" "zz" "zz"
          "t").patternRemember.data.map asciiLower)) :=
  ⟨by decide, by decide,
   term_filter_like_semantics "Foo"
     (Mistake.mk 1 "xfooy" "2024-01-01" "zz" "zz" "zz" "zz" "t")
     (by decide) (by decide)⟩

/-- C9: an Add submission in which some required field is empty after
trimming, or whose trimmed date fails `time.Parse("2006-01-02", ·)`, is
answered with a 400 client error and the stored records are unchanged —
`mistakeFromForm` returns an error before any insert happens. -/
theorem add_invalid_input_rejected_no_insert (st : DB) (f : MistakeForm)
    (now : String)
    (h : trimS f.topic = "" ∨ trimS f.date = "" ∨
         trimS f.problemStatement = "" ∨ trimS f.whatIMissed = "" ∨
         trimS f.fixRule = "" ∨ trimS f.patternToRemember = "" ∨
         validDate (trimS f.date) = false) :
    handleAdd st f now = (st, HResp.badRequest) := by
  have herr : ∃ e, mistakeFromForm f = .error e := by
    simp only [mistakeFromForm]
    split_ifs with h1 h2
    · exact ⟨_, rfl⟩
    · exfalso
      rcases h with h' | h' | h' | h' | h' | h' | h'
      · exact h1 (Or.inl h')
      · exact h1 (Or.inr (Or.inl h'))
      · exact h1 (Or.inr (Or.inr (Or.inl h')))
      · exact h1 (Or.inr (Or.inr (Or.inr (Or.inl h'))))
      · exact h1 (Or.inr (Or.inr (Or.inr (Or.inr (Or.inl h')))))
      · exact h1 (Or.inr (Or.inr (Or.inr (Or.inr (Or.inr h')))))
      · rw [h'] at h2
        cases h2
    · exact ⟨_, rfl⟩
  obtain ⟨e, he⟩ := herr
  unfold handleAdd
  rw [he]

theorem add_invalid_input_rejected_no_insert_witness :
    (trimS "  " = "" ∨ trimS "2024-01-02" = "" ∨ trimS "p" = "" ∨
     trimS "w" = "" ∨ trimS "f" = "" ∨ trimS "pa" = "" ∨
     validDate (trimS "2024-01-02") = false) ∧
    handleAdd (DB.mk [] 1) (MistakeForm.mk "  " "2024-01-02" "p" "w" "f" "pa")
        "now" =
      (DB.mk [] 1, HResp.badRequest) :=
  ⟨by decide,
   add_invalid_input_rejected_no_insert (DB.mk [] 1)
     (MistakeForm.mk "  " "2024-01-02" "p" "w" "f" "pa") "now" (by decide)⟩

/-- C10 (counterexample): the claim says every GET request whose path
matches no other registered route is served by the list view.  But
`ServeMux` canonicalizes before dispatching: `GET /static` (which matches
no registered pattern — `/static/` requires the trailing slash) is
answered with a 301 redirect to `/static/`, and an uncleaned path such as
`//add` is answered with a 301 redirect to `/add`; neither reaches the
index handler. -/
theorem mux_canonicalization_redirect_cex :
    muxRoute "/static" = RouteResult.redirectPermanent "/static/" ∧
    muxRoute "//add" = RouteResult.redirectPermanent "/add" ∧
    muxRoute "/static" ≠ RouteResult.handler RouteTarget.index ∧
    muxRoute "//add" ≠ RouteResult.handler RouteTarget.index := by decide

/-- C10 (amended): the list handler is registered on the subtree pattern
`/`, so a path that is already canonical (`cleanPath` leaves it
unchanged), differs from the registered exact patterns, is not `/static`
(which 301-redirects to `/static/`), and is not under `/static/` — e.g.
`/nonexistent` — is dispatched to the same index (list) handler as `/`
itself, rather than to a 404; non-canonical paths are 301-redirected to
their cleaned form instead. -/
theorem unmatched_paths_served_by_index (p : String)
    (hclean : cleanPath p = p)
    (h1 : p ≠ "/add") (h2 : p ≠ "/edit") (h3 : p ≠ "/delete")
    (h4 : p ≠ "/export.csv") (h5 : p ≠ "/rules") (h0 : p ≠ "/static")
    (h6 : List.isPrefixOf "/static/".data p.data = false) :
    muxRoute p = RouteResult.handler RouteTarget.index ∧
    muxRoute p = muxRoute "/" := by
  have hp : muxRoute p = RouteResult.handler RouteTarget.index := by
    simp [muxRoute, muxMatch, hclean, h0, h1, h2, h3, h4, h5, h6]
  exact ⟨hp,
    hp.trans
      (by decide : muxRoute "/" = RouteResult.handler RouteTarget.index).symm⟩

theorem unmatched_paths_served_by_index_witness :
    cleanPath "/nonexistent" = "/nonexistent" ∧
    muxRoute "/nonexistent" = RouteResult.handler RouteTarget.index ∧
    muxRoute "/nonexistent" = muxRoute "/" :=
  ⟨by decide,
   unmatched_paths_served_by_index "/nonexistent" (by decide) (by decide)
     (by decide) (by decide) (by decide) (by decide) (by decide)
     (by decide)⟩
